import Mathlib

/-!
# Verification of the nix-sample repository's scripts and demo API

Shallow embedding of:
* `scripts/push-image.sh`  — pushes an OCI image with skopeo, prints its digest;
* `scripts/print-digest.sh` — prints the digest of a remote image;
* `apps/api/src/index.ts`  — the Express demo API with three GET routes.

The shell scripts run under `set -euo pipefail`: any external command (or
pipeline) returning a nonzero status aborts the script with that status.
External tools (skopeo, jq) are modelled as oracle inputs in the
configuration: their exit codes and the parsed JSON that `skopeo inspect`
writes are fields of the config, and the script logic is a pure function
of the config.  Each run yields an exit code, the lines the script itself
wrote to stdout and stderr, and the ordered trace of external-facing steps.
-/

/-- A JSON value, as produced by the tools the scripts pipe together and by
the Express handlers via `res.json`.  JavaScript numbers are modelled as
integers; the code under verification only passes them through. -/
inductive Json where
  | null
  | bool (b : Bool)
  | num (n : Int)
  | str (s : String)
  | arr (elems : List Json)
  | obj (fields : List (String × Json))
deriving Repr

/-- Field lookup in a JSON object (first binding wins, as in `jq .key`);
`none` on non-objects. -/
def Json.lookup : Json → String → Option Json
  | Json.obj fs, k => List.lookup k fs
  | _, _ => none

/-- The list of top-level keys of a JSON object, `none` for any other value.
A response "is a well-formed JSON object with keys ks" iff this returns
`some ks`. -/
def Json.topKeys : Json → Option (List String)
  | Json.obj fs => some (fs.map Prod.fst)
  | _ => none

mutual

/-- Compact rendering of a JSON value (string escaping elided; the scripts
never feed strings needing escapes back through the renderer). -/
def Json.render : Json → String
  | Json.null => "null"
  | Json.bool b => cond b "true" "false"
  | Json.num n => toString n
  | Json.str s => "\x22" ++ s ++ "\x22"
  | Json.arr es => "[" ++ Json.renderElems es ++ "]"
  | Json.obj fs => "\x7b" ++ Json.renderFields fs ++ "\x7d"

/-- Comma-separated rendering of array elements. -/
def Json.renderElems : List Json → String
  | [] => ""
  | [e] => Json.render e
  | e :: es => Json.render e ++ "," ++ Json.renderElems es

/-- Comma-separated rendering of object fields. -/
def Json.renderFields : List (String × Json) → String
  | [] => ""
  | [(k, v)] => "\x22" ++ k ++ "\x22:" ++ Json.render v
  | (k, v) :: fs => "\x22" ++ k ++ "\x22:" ++ Json.render v ++ "," ++ Json.renderFields fs

end

/-- The jq filter `.Digest`: the Digest field of an object, else null. -/
def jqDotDigest (j : Json) : Json := (j.lookup "Digest").getD Json.null

/-- jq with `-r`: strings print raw, everything else as JSON text. -/
def jqRaw : Json → String
  | Json.str s => s
  | j => j.render

/-- Bash `${VAR:?msg}`: yields the value when set and non-empty, otherwise
the expansion fails (the script exits 1 with a message on stderr). -/
def colonQmark : Option String → Option String
  | some s => if s == "" then none else some s
  | none => none

/-- Bash `${VAR:-default}`: the default when the variable is unset or empty. -/
def colonDash : Option String → String → String
  | some s, d => if s == "" then d else s
  | none, d => d

/-- Bash `[[ -n "${VAR:-}" ]]`: true iff the variable is set and non-empty. -/
def nonEmptyVar : Option String → Bool
  | some s => s != ""
  | none => false

/-- Exit status of a two-command pipeline under `pipefail`: the rightmost
nonzero status, or zero when both succeed. -/
def pipeExit (a b : Nat) : Nat := if b ≠ 0 then b else a

/-- The stderr line bash prints when a `${N:?msg}` expansion fails. -/
def expansionError (arg0 : String) (line : Nat) (msg : String) : String :=
  arg0 ++ ": line " ++ toString line ++ ": 1: " ++ msg

/-- The externally visible steps a script performs, in trace order. -/
inductive Step where
  | argCheck
  | credCheck
  | login (registry user : String)
  | checkResult
  | copy (image : String)
  | inspect (image : String)
  | extract
deriving Repr, DecidableEq

/-- Outcome of one script run: the shell's exit status, the lines the script
itself echoed to stdout, its stderr lines, and the step trace. -/
structure RunResult where
  exitCode : Nat
  stdout : List String
  stderr : List String
  events : List Step
deriving Repr

/-- Inputs of one `push-image.sh` invocation: `$0`, the positional argument
`$1`, the environment variables the script reads, and the oracle for the
external tools (does `result` exist; exit codes of the skopeo login, skopeo
copy, skopeo inspect and jq invocations; the JSON skopeo inspect prints). -/
structure PushConfig where
  arg0 : String
  arg1 : Option String
  REGISTRY : Option String
  TAG : Option String
  REGISTRY_USER : Option String
  REGISTRY_PASSWORD : Option String
  resultExists : Bool
  loginExit : Nat
  copyExit : Nat
  inspectExit : Nat
  jqExit : Nat
  inspectJson : Json
deriving Repr

/-- Shell line `REGISTRY=${REGISTRY:-"ghcr.io/your-org"}` (push-image.sh line 28). -/
def registryOf (c : PushConfig) : String := colonDash c.REGISTRY "ghcr.io/your-org"

/-- Shell line `TAG=${TAG:-"latest"}` (push-image.sh line 29). -/
def tagOf (c : PushConfig) : String := colonDash c.TAG "latest"

/-- Shell line `IMAGE="$REGISTRY/nix-sample-$APP:$TAG"` (push-image.sh line 30). -/
def imageOf (c : PushConfig) (APP : String) : String :=
  registryOf c ++ "/nix-sample-" ++ APP ++ ":" ++ tagOf c

/-- The credential guard `[[ -n "${REGISTRY_USER:-}" && -n
"${REGISTRY_PASSWORD:-}" ]]` (push-image.sh line 37). -/
def credsGiven (c : PushConfig) : Bool :=
  nonEmptyVar c.REGISTRY_USER && nonEmptyVar c.REGISTRY_PASSWORD

/-- Shell line `DIGEST=$(skopeo inspect docker://"$IMAGE" | jq -r .Digest)`: the string
the command substitution captures when the pipeline succeeds. -/
def digestOf (c : PushConfig) : String := jqRaw (jqDotDigest c.inspectJson)

/-- The two echos printed when the `[[ -f result ]]` check fails
(push-image.sh lines 44-45). -/
def resultMissingLines (APP : String) : List String :=
  ["❌ Error: 'result' file not found",
   "Run 'nix build .#image-" ++ APP ++ "' first"]

/-- Stdout the push script has produced by the time the credential guard has
run: the two banner echos, plus the authentication echo when credentials
were given. -/
def pushPrefixOut (c : PushConfig) (APP : String) : List String :=
  ["📦 Pushing image for app: " ++ APP, "🎯 Target: " ++ imageOf c APP] ++
    (if credsGiven c then ["🔐 Authenticating with registry..."] else [])

/-- Steps the push script has performed by the time the credential guard has
run: `$1` validation, the guard itself, and `skopeo login` when credentials
were given. -/
def pushPrefixEv (c : PushConfig) : List Step :=
  [Step.argCheck, Step.credCheck] ++
    (if credsGiven c then [Step.login (registryOf c) (c.REGISTRY_USER.getD "")] else [])

/-- push-image.sh from the `[[ -f result ]]` check (line 43) to the end:
result check, `skopeo copy` (lines 50-53), `skopeo inspect | jq -r .Digest`
(line 61), and the digest echos (lines 62 and 65). -/
def pushStage2 (c : PushConfig) (APP : String) : RunResult :=
  let IMAGE := imageOf c APP
  if c.resultExists then
    let out := pushPrefixOut c APP ++ ["🚀 Pushing image to registry..."]
    let ev := pushPrefixEv c ++ [Step.checkResult, Step.copy IMAGE]
    if c.copyExit != 0 then
      { exitCode := c.copyExit, stdout := out, stderr := [], events := ev }
    else
      let out := out ++ ["✅ Image pushed successfully!", "📋 Fetching image digest..."]
      let ev := ev ++ [Step.inspect IMAGE, Step.extract]
      let pe := pipeExit c.inspectExit c.jqExit
      if pe != 0 then
        { exitCode := pe, stdout := out, stderr := [], events := ev }
      else
        { exitCode := 0
          stdout := out ++ ["🔍 Digest: " ++ digestOf c, digestOf c]
          stderr := []
          events := ev }
  else
    { exitCode := 1
      stdout := pushPrefixOut c APP ++ resultMissingLines APP
      stderr := []
      events := pushPrefixEv c ++ [Step.checkResult] }

/-- scripts/push-image.sh, whole script.  `APP=${1:?Usage: $0 <app-name>}`
(line 27), then the registry/tag defaults and IMAGE concatenation, the two
banner echos, the credential guard with optional `skopeo login`
(lines 37-40), then `pushStage2`. -/
def pushImage (c : PushConfig) : RunResult :=
  match colonQmark c.arg1 with
  | none =>
      { exitCode := 1
        stdout := []
        stderr := [expansionError c.arg0 27 ("Usage: " ++ c.arg0 ++ " <app-name>")]
        events := [Step.argCheck] }
  | some APP =>
      if credsGiven c then
        if c.loginExit != 0 then
          { exitCode := c.loginExit, stdout := pushPrefixOut c APP,
            stderr := [], events := pushPrefixEv c }
        else pushStage2 c APP
      else pushStage2 c APP

/-- Inputs of one `print-digest.sh` invocation: `$0`, `$1`, and the oracle
for `skopeo inspect | jq -r .Digest`. -/
structure DigestConfig where
  arg0 : String
  arg1 : Option String
  inspectExit : Nat
  jqExit : Nat
  inspectJson : Json
deriving Repr

/-- scripts/print-digest.sh: `IMAGE=${1:?Usage: $0 <image-url>}` (line 15),
a banner echo, `DIGEST=$(skopeo inspect docker://$IMAGE | jq -r .Digest)`
(line 21), then `echo "Digest: $DIGEST"`. -/
def printDigest (c : DigestConfig) : RunResult :=
  match colonQmark c.arg1 with
  | none =>
      { exitCode := 1
        stdout := []
        stderr := [expansionError c.arg0 15 ("Usage: " ++ c.arg0 ++ " <image-url>")]
        events := [Step.argCheck] }
  | some IMAGE =>
      let out := ["🔍 Fetching digest for: " ++ IMAGE]
      let pe := pipeExit c.inspectExit c.jqExit
      if pe != 0 then
        { exitCode := pe, stdout := out, stderr := [],
          events := [Step.argCheck, Step.inspect IMAGE, Step.extract] }
      else
        let DIGEST := jqRaw (jqDotDigest c.inspectJson)
        { exitCode := 0
          stdout := out ++ ["Digest: " ++ DIGEST]
          stderr := []
          events := [Step.argCheck, Step.inspect IMAGE, Step.extract] }

/-!
## The Express demo API (apps/api/src/index.ts)

Each handler is a pure function of the process state observed at request
time (the clock, `process.env.NODE_ENV`, `process.version`, platform
metrics) and of the incoming request, returning the JSON object passed to
`res.json`.  The server keeps no other state.
-/

/-- The process state a request observes: `new Date().toISOString()` at the
moment of the request, `process.env.NODE_ENV`, `process.version`,
`process.platform`, `process.arch`, `process.uptime()` (a JS number,
modelled as an integer) and the `process.memoryUsage()` byte counters. -/
structure ProcState where
  nowIso : String
  nodeEnv : Option String
  nodeVersion : String
  platform : String
  arch : String
  uptimeSec : Int
  rssBytes : Nat
  heapTotalBytes : Nat
  heapUsedBytes : Nat
deriving Repr, DecidableEq

/-- An incoming GET request (path plus everything else a request carries;
the handlers read none of it). -/
structure Request where
  path : String
  headers : List (String × String)
deriving Repr, DecidableEq

/-- JavaScript `s || "default"` on an environment variable: the default when
the variable is unset or the empty string (both are falsy). -/
def jsOrDefault : Option String → String → String
  | some s, d => if s == "" then d else s
  | none, d => d

/-- JavaScript `Math.round(bytes / 1024 / 1024)`.  For a byte count below 2^53 the
double-precision quotient is exact, so JS rounding (half toward +infinity)
equals floor(bytes / 2^20 + 1/2) = (2 * bytes + 2^20) / 2^21 in naturals. -/
def roundMB (bytes : Nat) : Nat := (2 * bytes + 1048576) / 2097152

/-- The `/health` handler (index.ts lines 21-27). -/
def healthHandler (st : ProcState) (_req : Request) : Json :=
  Json.obj
    [("status", Json.str "ok"),
     ("timestamp", Json.str st.nowIso),
     ("environment", Json.str (jsOrDefault st.nodeEnv "development"))]

/-- The `/` handler (index.ts lines 32-43): a literal object, referencing
neither the request nor the process state. -/
def rootHandler (_st : ProcState) (_req : Request) : Json :=
  Json.obj
    [("name", Json.str "Nix + Turborepo Sample API"),
     ("version", Json.str "1.0.0"),
     ("description", Json.str "API demonstrating Nix-based development and OCI image building"),
     ("endpoints", Json.obj
        [("/", Json.str "API information"),
         ("/health", Json.str "Health check"),
         ("/api/info", Json.str "Detailed system information")])]

/-- The `/api/info` handler (index.ts lines 48-62). -/
def infoHandler (st : ProcState) (_req : Request) : Json :=
  Json.obj
    [("node_version", Json.str st.nodeVersion),
     ("platform", Json.str st.platform),
     ("arch", Json.str st.arch),
     ("uptime", Json.num st.uptimeSec),
     ("memory", Json.obj
        [("rss", Json.str (toString (roundMB st.rssBytes) ++ "MB")),
         ("heapTotal", Json.str (toString (roundMB st.heapTotalBytes) ++ "MB")),
         ("heapUsed", Json.str (toString (roundMB st.heapUsedBytes) ++ "MB"))]),
     ("environment", Json.str (jsOrDefault st.nodeEnv "development"))]

/-- The app's GET routing: the three `app.get` registrations in order
(`/health`, `/`, `/api/info`); any other path falls through (Express 404). -/
def handleGet (st : ProcState) (req : Request) : Option Json :=
  if req.path == "/health" then some (healthHandler st req)
  else if req.path == "/" then some (rootHandler st req)
  else if req.path == "/api/info" then some (infoHandler st req)
  else none

/-!
## Case analysis of a push-image run

Every invocation falls into exactly one of six outcomes: usage failure,
login failure, missing `result`, copy failure, inspect-pipeline failure,
or success.
-/

/-- The app name a run works with (empty when `$1` was absent or empty). -/
def appOf (c : PushConfig) : String := (colonQmark c.arg1).getD ""

/-- The full step order of push-image.sh: argument validation, credential
guard, login, result check, copy, inspect, digest extraction.  Every run's
trace is a sublist of this list. -/
def canonicalSteps (c : PushConfig) (APP : String) : List Step :=
  [Step.argCheck, Step.credCheck,
   Step.login (registryOf c) (c.REGISTRY_USER.getD ""),
   Step.checkResult, Step.copy (imageOf c APP),
   Step.inspect (imageOf c APP), Step.extract]

theorem pushImage_result (c : PushConfig) :
    (colonQmark c.arg1 = none ∧
       pushImage c =
         { exitCode := 1, stdout := [],
           stderr := [expansionError c.arg0 27 ("Usage: " ++ c.arg0 ++ " <app-name>")],
           events := [Step.argCheck] })
  ∨ (∃ APP, colonQmark c.arg1 = some APP ∧
      ((credsGiven c = true ∧ c.loginExit ≠ 0 ∧
          pushImage c =
            { exitCode := c.loginExit, stdout := pushPrefixOut c APP,
              stderr := [], events := pushPrefixEv c })
      ∨ ((credsGiven c = false ∨ c.loginExit = 0) ∧
          ((c.resultExists = false ∧
              pushImage c =
                { exitCode := 1,
                  stdout := pushPrefixOut c APP ++ resultMissingLines APP,
                  stderr := [], events := pushPrefixEv c ++ [Step.checkResult] })
          ∨ (c.resultExists = true ∧ c.copyExit ≠ 0 ∧
              pushImage c =
                { exitCode := c.copyExit,
                  stdout := pushPrefixOut c APP ++ ["🚀 Pushing image to registry..."],
                  stderr := [],
                  events := pushPrefixEv c ++
                    [Step.checkResult, Step.copy (imageOf c APP)] })
          ∨ (c.resultExists = true ∧ c.copyExit = 0 ∧
              pipeExit c.inspectExit c.jqExit ≠ 0 ∧
              pushImage c =
                { exitCode := pipeExit c.inspectExit c.jqExit,
                  stdout := pushPrefixOut c APP ++
                    ["🚀 Pushing image to registry...",
                     "✅ Image pushed successfully!", "📋 Fetching image digest..."],
                  stderr := [],
                  events := pushPrefixEv c ++
                    [Step.checkResult, Step.copy (imageOf c APP),
                     Step.inspect (imageOf c APP), Step.extract] })
          ∨ (c.resultExists = true ∧ c.copyExit = 0 ∧
              pipeExit c.inspectExit c.jqExit = 0 ∧
              pushImage c =
                { exitCode := 0,
                  stdout := pushPrefixOut c APP ++
                    ["🚀 Pushing image to registry...",
                     "✅ Image pushed successfully!", "📋 Fetching image digest...",
                     "🔍 Digest: " ++ digestOf c, digestOf c],
                  stderr := [],
                  events := pushPrefixEv c ++
                    [Step.checkResult, Step.copy (imageOf c APP),
                     Step.inspect (imageOf c APP), Step.extract] })))))
    := by
  rcases h : colonQmark c.arg1 with _ | APP
  · exact Or.inl ⟨rfl, by simp [pushImage, h]⟩
  refine Or.inr ⟨APP, rfl, ?_⟩
  by_cases hc : credsGiven c
  · by_cases hl : c.loginExit = 0
    · refine Or.inr ⟨Or.inr hl, ?_⟩
      by_cases hr : c.resultExists
      · by_cases hcp : c.copyExit = 0
        · by_cases hp : pipeExit c.inspectExit c.jqExit = 0
          · exact Or.inr (Or.inr (Or.inr ⟨hr, hcp, hp, by
              simp [pushImage, pushStage2, h, hc, hl, hr, hcp, hp]⟩))
          · exact Or.inr (Or.inr (Or.inl ⟨hr, hcp, hp, by
              simp [pushImage, pushStage2, h, hc, hl, hr, hcp, hp]⟩))
        · exact Or.inr (Or.inl ⟨hr, hcp, by
            simp [pushImage, pushStage2, h, hc, hl, hr, hcp]⟩)
      · exact Or.inl ⟨by simpa using hr, by
          simp [pushImage, pushStage2, h, hc, hl, hr]⟩
    · exact Or.inl ⟨hc, hl, by simp [pushImage, h, hc, hl]⟩
  · refine Or.inr ⟨Or.inl (by simpa using hc), ?_⟩
    by_cases hr : c.resultExists
    · by_cases hcp : c.copyExit = 0
      · by_cases hp : pipeExit c.inspectExit c.jqExit = 0
        · exact Or.inr (Or.inr (Or.inr ⟨hr, hcp, hp, by
            simp [pushImage, pushStage2, h, hc, hr, hcp, hp]⟩))
        · exact Or.inr (Or.inr (Or.inl ⟨hr, hcp, hp, by
            simp [pushImage, pushStage2, h, hc, hr, hcp, hp]⟩))
      · exact Or.inr (Or.inl ⟨hr, hcp, by
          simp [pushImage, pushStage2, h, hc, hr, hcp]⟩)
    · exact Or.inl ⟨by simpa using hr, by
        simp [pushImage, pushStage2, h, hc, hr]⟩

lemma prefixEv_append_sublist (c : PushConfig) (APP : String) (tail : List Step)
    (h : tail.Sublist
      [Step.checkResult, Step.copy (imageOf c APP),
       Step.inspect (imageOf c APP), Step.extract]) :
    (pushPrefixEv c ++ tail).Sublist (canonicalSteps c APP) := by
  unfold pushPrefixEv canonicalSteps
  by_cases hc : credsGiven c = true
  · have he : ([Step.argCheck, Step.credCheck] ++
        (if credsGiven c then
          [Step.login (registryOf c) (c.REGISTRY_USER.getD "")] else [])) ++ tail =
        Step.argCheck :: Step.credCheck ::
          Step.login (registryOf c) (c.REGISTRY_USER.getD "") :: tail := by
      simp [hc]
    rw [he]
    exact List.Sublist.cons₂ _ (List.Sublist.cons₂ _ (List.Sublist.cons₂ _ h))
  · have he : ([Step.argCheck, Step.credCheck] ++
        (if credsGiven c then
          [Step.login (registryOf c) (c.REGISTRY_USER.getD "")] else [])) ++ tail =
        Step.argCheck :: Step.credCheck :: tail := by
      simp [hc]
    rw [he]
    exact List.Sublist.cons₂ _ (List.Sublist.cons₂ _ (List.Sublist.cons _ h))

lemma credCheck_mem_prefixEv (c : PushConfig) : Step.credCheck ∈ pushPrefixEv c := by
  by_cases hc : credsGiven c = true <;> simp [pushPrefixEv, hc]

lemma argCheck_mem_prefixEv (c : PushConfig) : Step.argCheck ∈ pushPrefixEv c := by
  by_cases hc : credsGiven c = true <;> simp [pushPrefixEv, hc]

/-- C1: on every invocation of the push script the steps occur in this
order: validation of the environment-derived strings (the `$1` check and
the credential guard), then the optional registry login, then the check
that the local `result` artifact exists, then the `skopeo copy`
invocation, then the `skopeo inspect` invocation together with the
extraction of the Digest field from its JSON output.  The trace of every
run is a sublist of that canonical order, argument validation always
happens, and a successful run performs the whole tail of the order. -/
theorem push_steps_ordered (c : PushConfig) :
    (pushImage c).events.Sublist (canonicalSteps c (appOf c)) ∧
    Step.argCheck ∈ (pushImage c).events ∧
    ((pushImage c).exitCode = 0 →
      Step.credCheck ∈ (pushImage c).events ∧
      Step.checkResult ∈ (pushImage c).events ∧
      Step.copy (imageOf c (appOf c)) ∈ (pushImage c).events ∧
      Step.inspect (imageOf c (appOf c)) ∈ (pushImage c).events ∧
      Step.extract ∈ (pushImage c).events) := by
  rcases pushImage_result c with ⟨hn, he⟩ |
    ⟨APP, hs, ⟨hc, hl, he⟩ | ⟨-, ⟨hr, he⟩ | ⟨hr, hcp, he⟩ | ⟨hr, hcp, hp, he⟩ | ⟨hr, hcp, hp, he⟩⟩⟩
  · refine ⟨?_, ?_, ?_⟩
    · rw [he]
      exact List.Sublist.cons₂ _ (List.nil_sublist _)
    · rw [he]; simp
    · rw [he]; intro h0; simp at h0
  all_goals have hA : appOf c = APP := by simp [appOf, hs]
  · refine ⟨?_, ?_, ?_⟩
    · have h2 := prefixEv_append_sublist c APP [] (List.nil_sublist _)
      rw [List.append_nil] at h2
      rw [he, hA]
      exact h2
    · rw [he]
      exact argCheck_mem_prefixEv c
    · rw [he]
      intro h0
      exact absurd h0 hl
  · refine ⟨?_, ?_, ?_⟩
    · rw [he, hA]
      exact prefixEv_append_sublist c APP [Step.checkResult]
        (List.Sublist.cons₂ _ (List.nil_sublist _))
    · rw [he]; simp [argCheck_mem_prefixEv c]
    · rw [he]; intro h0; simp at h0
  · refine ⟨?_, ?_, ?_⟩
    · rw [he, hA]
      exact prefixEv_append_sublist c APP [Step.checkResult, Step.copy (imageOf c APP)]
        (List.Sublist.cons₂ _ (List.Sublist.cons₂ _ (List.nil_sublist _)))
    · rw [he]; simp [argCheck_mem_prefixEv c]
    · rw [he]; intro h0; exact absurd h0 hcp
  · refine ⟨?_, ?_, ?_⟩
    · rw [he, hA]
      exact prefixEv_append_sublist c APP
        [Step.checkResult, Step.copy (imageOf c APP),
         Step.inspect (imageOf c APP), Step.extract]
        (List.Sublist.refl _)
    · rw [he]; simp [argCheck_mem_prefixEv c]
    · rw [he]; intro h0; exact absurd h0 hp
  · refine ⟨?_, ?_, ?_⟩
    · rw [he, hA]
      exact prefixEv_append_sublist c APP
        [Step.checkResult, Step.copy (imageOf c APP),
         Step.inspect (imageOf c APP), Step.extract]
        (List.Sublist.refl _)
    · rw [he]; simp [argCheck_mem_prefixEv c]
    · intro _
      rw [he, hA]
      refine ⟨?_, ?_, ?_, ?_, ?_⟩ <;> simp [credCheck_mem_prefixEv c]

/-- A fully successful push-image invocation, used to witness the theorems:
`./scripts/push-image.sh web` with credentials, `result` present, and all
external tools succeeding. -/
def okPush : PushConfig :=
  { arg0 := "./scripts/push-image.sh", arg1 := some "web",
    REGISTRY := some "ghcr.io/acme", TAG := some "v1.2.3",
    REGISTRY_USER := some "alice", REGISTRY_PASSWORD := some "hunter2",
    resultExists := true, loginExit := 0, copyExit := 0,
    inspectExit := 0, jqExit := 0,
    inspectJson := Json.obj [("Digest", Json.str "sha256:abc")] }

/-- C1 witness: on the successful run `okPush` the script exits 0 and the
inspect/extract tail of the canonical order was performed. -/
theorem push_steps_ordered_witness :
    (pushImage okPush).exitCode = 0 ∧
    Step.extract ∈ (pushImage okPush).events :=
  ⟨rfl, ((push_steps_ordered okPush).2.2 rfl).2.2.2.2⟩

/-- C2: on every successful run (exit code 0) of the push script, the final
stdout line is exactly the digest string `jq -r .Digest` extracted from the
inspect output — in particular, when the inspect JSON has a string Digest
field `d`, the final line is `d` itself, with no prefix or label. -/
theorem push_success_final_line (c : PushConfig) (d : String)
    (h0 : (pushImage c).exitCode = 0) :
    (pushImage c).stdout.getLast? = some (digestOf c) ∧
    (c.inspectJson.lookup "Digest" = some (Json.str d) →
      (pushImage c).stdout.getLast? = some d) := by
  rcases pushImage_result c with ⟨hn, he⟩ |
    ⟨APP, hs, ⟨hc, hl, he⟩ | ⟨-, ⟨hr, he⟩ | ⟨hr, hcp, he⟩ | ⟨hr, hcp, hp, he⟩ | ⟨hr, hcp, hp, he⟩⟩⟩
  · rw [he] at h0; simp at h0
  · rw [he] at h0; exact absurd h0 hl
  · rw [he] at h0; simp at h0
  · rw [he] at h0; exact absurd h0 hcp
  · rw [he] at h0; exact absurd h0 hp
  · have hst : (pushImage c).stdout = pushPrefixOut c APP ++
        ["🚀 Pushing image to registry...",
         "✅ Image pushed successfully!", "📋 Fetching image digest...",
         "🔍 Digest: " ++ digestOf c, digestOf c] := by rw [he]
    have hsplit : pushPrefixOut c APP ++
        ["🚀 Pushing image to registry...",
         "✅ Image pushed successfully!", "📋 Fetching image digest...",
         "🔍 Digest: " ++ digestOf c, digestOf c] =
        (pushPrefixOut c APP ++
          ["🚀 Pushing image to registry...",
           "✅ Image pushed successfully!", "📋 Fetching image digest...",
           "🔍 Digest: " ++ digestOf c]) ++ [digestOf c] := by simp
    constructor
    · rw [hst, hsplit, List.getLast?_concat]
    · intro hd
      have hdig : digestOf c = d := by
        simp [digestOf, jqDotDigest, hd, jqRaw]
      rw [hst, hsplit, List.getLast?_concat, hdig]

/-- C2 witness: the successful run `okPush` exits 0 and its final stdout
line is the bare digest sha256:abc. -/
theorem push_success_final_line_witness :
    (pushImage okPush).exitCode = 0 ∧
    (pushImage okPush).stdout.getLast? = some "sha256:abc" :=
  ⟨rfl, (push_success_final_line okPush "sha256:abc" rfl).2 rfl⟩

lemma copy_not_mem_prefixEv (c : PushConfig) (i : String) :
    Step.copy i ∉ pushPrefixEv c := by
  by_cases hc : credsGiven c = true <;> simp [pushPrefixEv, hc]

/-- C3: whenever the `result` artifact is absent, the push script exits
nonzero and never invokes `skopeo copy`; and on any invocation that
actually reaches the file check (valid argument, login not failing
earlier), it prints the error message about the missing file. -/
theorem push_missing_result (c : PushConfig) (h : c.resultExists = false) :
    (pushImage c).exitCode ≠ 0 ∧
    (∀ i, Step.copy i ∉ (pushImage c).events) ∧
    (∀ APP, colonQmark c.arg1 = some APP → (credsGiven c = true → c.loginExit = 0) →
      "❌ Error: 'result' file not found" ∈ (pushImage c).stdout) := by
  rcases pushImage_result c with ⟨hn, he⟩ |
    ⟨APP, hs, ⟨hc, hl, he⟩ | ⟨-, ⟨hr, he⟩ | ⟨hr, hcp, he⟩ | ⟨hr, hcp, hp, he⟩ | ⟨hr, hcp, hp, he⟩⟩⟩
  · refine ⟨?_, ?_, ?_⟩
    · rw [he]; simp
    · intro i; rw [he]; simp
    · intro APP hAPP
      rw [hn] at hAPP
      cases hAPP
  · refine ⟨?_, ?_, ?_⟩
    · rw [he]; exact hl
    · intro i; rw [he]; exact copy_not_mem_prefixEv c i
    · intro APP2 hAPP hlogin
      exact absurd (hlogin hc) hl
  · refine ⟨?_, ?_, ?_⟩
    · rw [he]; simp
    · intro i
      rw [he]
      simp [copy_not_mem_prefixEv c i]
    · intro APP2 hAPP hlogin
      rw [he]
      simp [resultMissingLines]
  · simp [h] at hr
  · simp [h] at hr
  · simp [h] at hr

/-- The push invocation with the artifact missing, for the C3 witness. -/
def noResultPush : PushConfig := { okPush with resultExists := false }

/-- C3 witness: with `result` absent, `okPush`'s otherwise-successful
invocation exits nonzero and prints the missing-file error. -/
theorem push_missing_result_witness :
    noResultPush.resultExists = false ∧
    (pushImage noResultPush).exitCode ≠ 0 ∧
    "❌ Error: 'result' file not found" ∈ (pushImage noResultPush).stdout :=
  ⟨rfl, (push_missing_result noResultPush rfl).1,
   (push_missing_result noResultPush rfl).2.2 "web" rfl (fun _ => rfl)⟩

lemma inspect_not_mem_prefixEv (c : PushConfig) (i : String) :
    Step.inspect i ∉ pushPrefixEv c := by
  by_cases hc : credsGiven c = true <;> simp [pushPrefixEv, hc]

lemma checkResult_not_mem_prefixEv (c : PushConfig) :
    Step.checkResult ∉ pushPrefixEv c := by
  by_cases hc : credsGiven c = true <;> simp [pushPrefixEv, hc]

/-- C5: both scripts fail fast.  If the login command fails, the push script
exits with its status and never checks `result`, copies, or inspects; if
the copy command fails after being invoked, the script exits with its
status and never inspects; if the inspect/jq pipeline fails after being
invoked, the script exits with the pipeline's status and stops before the
digest echos; and if the digest-print script's pipeline fails, it exits
with the pipeline's status with only its banner line printed. -/
theorem scripts_fail_fast (c : PushConfig) (dc : DigestConfig) :
    ((credsGiven c = true ∧ c.loginExit ≠ 0 ∧ colonQmark c.arg1 ≠ none) →
      (pushImage c).exitCode = c.loginExit ∧
      Step.checkResult ∉ (pushImage c).events ∧
      (∀ i, Step.copy i ∉ (pushImage c).events) ∧
      (∀ i, Step.inspect i ∉ (pushImage c).events)) ∧
    ((c.copyExit ≠ 0 ∧ (∃ i, Step.copy i ∈ (pushImage c).events)) →
      (pushImage c).exitCode = c.copyExit ∧
      (∀ i, Step.inspect i ∉ (pushImage c).events)) ∧
    ((pipeExit c.inspectExit c.jqExit ≠ 0 ∧
        (∃ i, Step.inspect i ∈ (pushImage c).events)) →
      (pushImage c).exitCode = pipeExit c.inspectExit c.jqExit ∧
      (pushImage c).stdout.getLast? = some "📋 Fetching image digest...") ∧
    ((pipeExit dc.inspectExit dc.jqExit ≠ 0 ∧ colonQmark dc.arg1 ≠ none) →
      (printDigest dc).exitCode = pipeExit dc.inspectExit dc.jqExit ∧
      (∃ IMAGE, colonQmark dc.arg1 = some IMAGE ∧
        (printDigest dc).stdout = ["🔍 Fetching digest for: " ++ IMAGE])) := by
  refine ⟨?_, ?_, ?_, ?_⟩
  · rintro ⟨hc, hl, hne⟩
    rcases pushImage_result c with ⟨hn, he⟩ |
      ⟨APP, hs, ⟨hc2, hl2, he⟩ |
        ⟨hnl, ⟨hr, he⟩ | ⟨hr, hcp, he⟩ | ⟨hr, hcp, hp, he⟩ | ⟨hr, hcp, hp, he⟩⟩⟩
    · exact absurd hn hne
    · refine ⟨?_, ?_, ?_, ?_⟩
      · rw [he]
      · rw [he]; exact checkResult_not_mem_prefixEv c
      · intro i; rw [he]; exact copy_not_mem_prefixEv c i
      · intro i; rw [he]; exact inspect_not_mem_prefixEv c i
    all_goals rcases hnl with hnl | hnl
    all_goals first
      | (rw [hc] at hnl; cases hnl)
      | exact absurd hnl hl
  · rintro ⟨hcp0, i, hi⟩
    rcases pushImage_result c with ⟨hn, he⟩ |
      ⟨APP, hs, ⟨hc2, hl2, he⟩ |
        ⟨hnl, ⟨hr, he⟩ | ⟨hr, hcp, he⟩ | ⟨hr, hcp, hp, he⟩ | ⟨hr, hcp, hp, he⟩⟩⟩
    · rw [he] at hi; simp at hi
    · rw [he] at hi; exact absurd hi (copy_not_mem_prefixEv c i)
    · rw [he] at hi
      rcases List.mem_append.mp hi with hi | hi
      · exact absurd hi (copy_not_mem_prefixEv c i)
      · simp at hi
    · refine ⟨by rw [he], ?_⟩
      intro j
      rw [he]
      simp [inspect_not_mem_prefixEv c j]
    · exact absurd hcp hcp0
    · exact absurd hcp hcp0
  · rintro ⟨hp0, i, hi⟩
    rcases pushImage_result c with ⟨hn, he⟩ |
      ⟨APP, hs, ⟨hc2, hl2, he⟩ |
        ⟨hnl, ⟨hr, he⟩ | ⟨hr, hcp, he⟩ | ⟨hr, hcp, hp, he⟩ | ⟨hr, hcp, hp, he⟩⟩⟩
    · rw [he] at hi; simp at hi
    · rw [he] at hi; exact absurd hi (inspect_not_mem_prefixEv c i)
    · rw [he] at hi
      rcases List.mem_append.mp hi with hi | hi
      · exact absurd hi (inspect_not_mem_prefixEv c i)
      · simp at hi
    · rw [he] at hi
      rcases List.mem_append.mp hi with hi | hi
      · exact absurd hi (inspect_not_mem_prefixEv c i)
      · simp at hi
    · refine ⟨by rw [he], ?_⟩
      have hst : (pushImage c).stdout = pushPrefixOut c APP ++
          ["🚀 Pushing image to registry...",
           "✅ Image pushed successfully!", "📋 Fetching image digest..."] := by rw [he]
      have hsplit : pushPrefixOut c APP ++
          ["🚀 Pushing image to registry...",
           "✅ Image pushed successfully!", "📋 Fetching image digest..."] =
          (pushPrefixOut c APP ++
            ["🚀 Pushing image to registry...", "✅ Image pushed successfully!"]) ++
            ["📋 Fetching image digest..."] := by simp
      rw [hst, hsplit, List.getLast?_concat]
    · exact absurd hp hp0
  · rintro ⟨hp0, hne⟩
    cases hI : colonQmark dc.arg1 with
    | none => exact absurd hI hne
    | some IMAGE =>
        have hb : (pipeExit dc.inspectExit dc.jqExit != 0) = true := by
          simpa using hp0
        refine ⟨?_, IMAGE, rfl, ?_⟩ <;> simp [printDigest, hI, hb]

/-- The push-script invocation with a failing copy, and the digest-script
invocation with a failing inspect, for the C5 witness. -/
def copyFailPush : PushConfig := { okPush with copyExit := 2 }

/-- A digest-print invocation whose inspect command fails. -/
def failDigest : DigestConfig :=
  { arg0 := "./scripts/print-digest.sh",
    arg1 := some "ghcr.io/acme/nix-sample-web:v1.2.3",
    inspectExit := 1, jqExit := 0, inspectJson := Json.null }

/-- C5 witness: with `skopeo copy` failing (status 2) the push script exits
2 and never inspects; with `skopeo inspect` failing (status 1) the
digest-print script exits 1. -/
theorem scripts_fail_fast_witness :
    (pushImage copyFailPush).exitCode = 2 ∧
    (∀ i, Step.inspect i ∉ (pushImage copyFailPush).events) ∧
    (printDigest failDigest).exitCode = 1 := by
  have h := scripts_fail_fast copyFailPush failDigest
  have h2 := h.2.1 ⟨by decide, "ghcr.io/acme/nix-sample-web:v1.2.3", by decide⟩
  have h4 := h.2.2.2 ⟨by decide, by decide⟩
  exact ⟨h2.1, h2.2, h4.1⟩

lemma target_mem_prefixOut (c : PushConfig) (APP : String) :
    "🎯 Target: " ++ imageOf c APP ∈ pushPrefixOut c APP := by
  by_cases hc : credsGiven c = true <;> simp [pushPrefixOut, hc]

lemma target_line_mem (c : PushConfig) (APP : String)
    (hAPP : colonQmark c.arg1 = some APP) :
    "🎯 Target: " ++ imageOf c APP ∈ (pushImage c).stdout := by
  rcases pushImage_result c with ⟨hn, he⟩ | ⟨APP2, hs, hcase⟩
  · rw [hn] at hAPP; cases hAPP
  have hA : APP2 = APP := by
    rw [hAPP] at hs
    exact (Option.some.inj hs).symm
  subst hA
  rcases hcase with ⟨hc2, hl2, he⟩ |
    ⟨hnl, ⟨hr, he⟩ | ⟨hr, hcp, he⟩ | ⟨hr, hcp, hp, he⟩ | ⟨hr, hcp, hp, he⟩⟩
  · rw [he]; exact target_mem_prefixOut c APP2
  all_goals rw [he]
  all_goals simp [target_mem_prefixOut c APP2]

/-- C6: the CLI contract of both scripts.  A missing (or empty) positional
argument makes either script exit nonzero with a usage message and perform
nothing else; the push script builds its target reference from the
REGISTRY and TAG environment variables and prints it; a run exits 0
exactly when the argument was given and every external command succeeded;
and the digest-print script performs exactly one inspect invocation and
one field extraction. -/
theorem cli_contract (c : PushConfig) (dc : DigestConfig) :
    (colonQmark c.arg1 = none →
      (pushImage c).exitCode ≠ 0 ∧
      (pushImage c).stderr =
        [expansionError c.arg0 27 ("Usage: " ++ c.arg0 ++ " <app-name>")] ∧
      (pushImage c).events = [Step.argCheck]) ∧
    (colonQmark dc.arg1 = none →
      (printDigest dc).exitCode ≠ 0 ∧
      (printDigest dc).stderr =
        [expansionError dc.arg0 15 ("Usage: " ++ dc.arg0 ++ " <image-url>")] ∧
      (printDigest dc).events = [Step.argCheck]) ∧
    ((pushImage c).exitCode = 0 ↔
      (colonQmark c.arg1 ≠ none ∧ (credsGiven c = true → c.loginExit = 0) ∧
       c.resultExists = true ∧ c.copyExit = 0 ∧
       pipeExit c.inspectExit c.jqExit = 0)) ∧
    ((printDigest dc).exitCode = 0 ↔
      (colonQmark dc.arg1 ≠ none ∧ pipeExit dc.inspectExit dc.jqExit = 0)) ∧
    (∀ IMAGE, colonQmark dc.arg1 = some IMAGE →
      (printDigest dc).events = [Step.argCheck, Step.inspect IMAGE, Step.extract]) ∧
    (∀ APP, colonQmark c.arg1 = some APP →
      "🎯 Target: " ++ imageOf c APP ∈ (pushImage c).stdout) := by
  refine ⟨?_, ?_, ?_, ?_, ?_, ?_⟩
  · intro hn
    rcases pushImage_result c with ⟨-, he⟩ | ⟨APP, hs, -⟩
    · exact ⟨by rw [he]; simp, by rw [he], by rw [he]⟩
    · rw [hn] at hs; cases hs
  · intro hn
    simp [printDigest, hn, expansionError]
  · constructor
    · intro h0
      rcases pushImage_result c with ⟨hn, he⟩ |
        ⟨APP, hs, ⟨hc2, hl2, he⟩ |
          ⟨hnl, ⟨hr, he⟩ | ⟨hr, hcp, he⟩ | ⟨hr, hcp, hp, he⟩ | ⟨hr, hcp, hp, he⟩⟩⟩
      · rw [he] at h0; simp at h0
      · rw [he] at h0; exact absurd h0 hl2
      · rw [he] at h0; simp at h0
      · rw [he] at h0; exact absurd h0 hcp
      · rw [he] at h0; exact absurd h0 hp
      · refine ⟨by rw [hs]; simp, ?_, hr, hcp, hp⟩
        rcases hnl with hnl | hnl
        · intro hcg; rw [hnl] at hcg; cases hcg
        · exact fun _ => hnl
    · rintro ⟨hne, hlog, hres, hcp0, hp0⟩
      rcases pushImage_result c with ⟨hn, he⟩ |
        ⟨APP, hs, ⟨hc2, hl2, he⟩ |
          ⟨hnl, ⟨hr, he⟩ | ⟨hr, hcp, he⟩ | ⟨hr, hcp, hp, he⟩ | ⟨hr, hcp, hp, he⟩⟩⟩
      · exact absurd hn hne
      · exact absurd (hlog hc2) hl2
      · rw [hres] at hr; cases hr
      · exact absurd hcp0 hcp
      · exact absurd hp0 hp
      · rw [he]
  · cases hI : colonQmark dc.arg1 with
    | none => simp [printDigest, hI]
    | some IMAGE =>
        by_cases hp : pipeExit dc.inspectExit dc.jqExit = 0
        · simp [printDigest, hI, hp]
        · have hb : (pipeExit dc.inspectExit dc.jqExit != 0) = true := by
            simpa using hp
          simp [printDigest, hI, hb, hp]
  · intro IMAGE hI
    by_cases hb : (pipeExit dc.inspectExit dc.jqExit != 0) = true <;>
      simp [printDigest, hI, hb]
  · intro APP hAPP
    exact target_line_mem c APP hAPP

/-- The push invocation with no positional argument, for witnesses. -/
def noArgPush : PushConfig := { okPush with arg1 := none }

/-- A fully successful digest-print invocation. -/
def okDigest : DigestConfig :=
  { arg0 := "./scripts/print-digest.sh",
    arg1 := some "ghcr.io/acme/nix-sample-web:v1.2.3",
    inspectExit := 0, jqExit := 0,
    inspectJson := Json.obj [("Digest", Json.str "sha256:abc")] }

/-- C6 witness: without an argument the push script fails; the successful
digest run exits 0 and performs exactly one inspect and one extraction. -/
theorem cli_contract_witness :
    (pushImage noArgPush).exitCode ≠ 0 ∧
    (printDigest okDigest).exitCode = 0 ∧
    (printDigest okDigest).events =
      [Step.argCheck, Step.inspect "ghcr.io/acme/nix-sample-web:v1.2.3",
       Step.extract] := by
  have h := cli_contract noArgPush okDigest
  exact ⟨(h.1 rfl).1, h.2.2.2.1.mpr ⟨by decide, rfl⟩,
    h.2.2.2.2.1 "ghcr.io/acme/nix-sample-web:v1.2.3" rfl⟩

/-- C8: REGISTRY defaults to ghcr.io/your-org and TAG to latest when unset
or empty, and on every invocation with a valid argument the target image
reference is exactly REGISTRY ++ "/nix-sample-" ++ APP ++ ":" ++ TAG: it
is printed in the target banner, and it is the reference the copy step
receives whenever the copy step runs. -/
theorem push_image_reference (c : PushConfig) (APP : String)
    (h : colonQmark c.arg1 = some APP) :
    ((c.REGISTRY = none ∨ c.REGISTRY = some "") →
      registryOf c = "ghcr.io/your-org") ∧
    ((c.TAG = none ∨ c.TAG = some "") → tagOf c = "latest") ∧
    imageOf c APP = registryOf c ++ "/nix-sample-" ++ APP ++ ":" ++ tagOf c ∧
    "🎯 Target: " ++ imageOf c APP ∈ (pushImage c).stdout ∧
    (∀ i, Step.copy i ∈ (pushImage c).events → i = imageOf c APP) := by
  refine ⟨?_, ?_, rfl, ?_, ?_⟩
  · rintro (hr | hr) <;> simp [registryOf, hr, colonDash]
  · rintro (ht | ht) <;> simp [tagOf, ht, colonDash]
  · exact target_line_mem c APP h
  · intro i hi
    rcases pushImage_result c with ⟨hn, he⟩ | ⟨APP2, hs, hcase⟩
    · rw [hn] at h; cases h
    have hA : APP2 = APP := by
      rw [h] at hs
      exact (Option.some.inj hs).symm
    subst hA
    rcases hcase with ⟨hc2, hl2, he⟩ |
      ⟨hnl, ⟨hr, he⟩ | ⟨hr, hcp, he⟩ | ⟨hr, hcp, hp, he⟩ | ⟨hr, hcp, hp, he⟩⟩
    · rw [he] at hi; exact absurd hi (copy_not_mem_prefixEv c i)
    · rw [he] at hi
      rcases List.mem_append.mp hi with hi | hi
      · exact absurd hi (copy_not_mem_prefixEv c i)
      · simp at hi
    all_goals rw [he] at hi
    all_goals rcases List.mem_append.mp hi with hi | hi
    all_goals first
      | exact absurd hi (copy_not_mem_prefixEv c i)
      | (simp at hi; exact hi)

/-- The push invocation with REGISTRY unset and TAG empty, exercising both
defaults. -/
def defaultsPush : PushConfig := { okPush with REGISTRY := none, TAG := some "" }

/-- C8 witness: with REGISTRY unset and TAG set to the empty string the
defaults apply and the printed target is the concatenated reference. -/
theorem push_image_reference_witness :
    registryOf defaultsPush = "ghcr.io/your-org" ∧
    tagOf defaultsPush = "latest" ∧
    imageOf defaultsPush "web" = "ghcr.io/your-org/nix-sample-web:latest" ∧
    "🎯 Target: " ++ imageOf defaultsPush "web" ∈ (pushImage defaultsPush).stdout := by
  have h := push_image_reference defaultsPush "web" rfl
  exact ⟨h.1 (Or.inl rfl), h.2.1 (Or.inr rfl), rfl, h.2.2.2.1⟩

lemma login_mem_events_iff (c : PushConfig) (tail : List Step)
    (htail : ∀ r u, Step.login r u ∉ tail) :
    (∃ r u, Step.login r u ∈ pushPrefixEv c ++ tail) ↔ credsGiven c = true := by
  constructor
  · rintro ⟨r, u, hm⟩
    rcases List.mem_append.mp hm with hm | hm
    · by_cases hc : credsGiven c = true
      · exact hc
      · simp [pushPrefixEv, hc] at hm
    · exact absurd hm (htail r u)
  · intro hc
    exact ⟨registryOf c, c.REGISTRY_USER.getD "", by simp [pushPrefixEv, hc]⟩

/-- C9: on any invocation with a valid argument, the push script attempts
the registry login exactly when both REGISTRY_USER and REGISTRY_PASSWORD
are set to non-empty strings; when they are not both given, no login step
ever occurs and (whenever `result` exists) the script still proceeds to
the copy step unauthenticated. -/
theorem push_login_iff_creds (c : PushConfig) (APP : String)
    (h : colonQmark c.arg1 = some APP) :
    ((∃ r u, Step.login r u ∈ (pushImage c).events) ↔
      (nonEmptyVar c.REGISTRY_USER = true ∧
       nonEmptyVar c.REGISTRY_PASSWORD = true)) ∧
    (credsGiven c = false →
      (∀ r u, Step.login r u ∉ (pushImage c).events) ∧
      (c.resultExists = true →
        Step.copy (imageOf c APP) ∈ (pushImage c).events)) := by
  rcases pushImage_result c with ⟨hn, he⟩ | ⟨APP2, hs, hcase⟩
  · rw [hn] at h; cases h
  have hA : APP2 = APP := by
    rw [h] at hs
    exact (Option.some.inj hs).symm
  subst hA
  rcases hcase with ⟨hc2, hl2, he⟩ |
    ⟨hnl, ⟨hr, he⟩ | ⟨hr, hcp, he⟩ | ⟨hr, hcp, hp, he⟩ | ⟨hr, hcp, hp, he⟩⟩
  · have hev : (pushImage c).events = pushPrefixEv c ++ [] := by
      rw [he, List.append_nil]
    constructor
    · rw [hev]
      exact (login_mem_events_iff c [] (by intro r u; simp)).trans
        (by simp [credsGiven, Bool.and_eq_true])
    · intro hcf
      rw [hcf] at hc2; cases hc2
  · have hev : (pushImage c).events = pushPrefixEv c ++ [Step.checkResult] := by
      rw [he]
    constructor
    · rw [hev]
      exact (login_mem_events_iff c _ (by intro r u; simp)).trans
        (by simp [credsGiven, Bool.and_eq_true])
    · intro hcf
      refine ⟨?_, ?_⟩
      · intro r u hm
        rw [hev] at hm
        have := (login_mem_events_iff c _ (by intro r u; simp)).mp ⟨r, u, hm⟩
        rw [hcf] at this; cases this
      · intro hres
        rw [hres] at hr; cases hr
  · have hev : (pushImage c).events = pushPrefixEv c ++
        [Step.checkResult, Step.copy (imageOf c APP2)] := by rw [he]
    constructor
    · rw [hev]
      exact (login_mem_events_iff c _ (by intro r u; simp)).trans
        (by simp [credsGiven, Bool.and_eq_true])
    · intro hcf
      refine ⟨?_, fun _ => ?_⟩
      · intro r u hm
        rw [hev] at hm
        have := (login_mem_events_iff c _ (by intro r u; simp)).mp ⟨r, u, hm⟩
        rw [hcf] at this; cases this
      · rw [hev]; simp
  · have hev : (pushImage c).events = pushPrefixEv c ++
        [Step.checkResult, Step.copy (imageOf c APP2),
         Step.inspect (imageOf c APP2), Step.extract] := by rw [he]
    constructor
    · rw [hev]
      exact (login_mem_events_iff c _ (by intro r u; simp)).trans
        (by simp [credsGiven, Bool.and_eq_true])
    · intro hcf
      refine ⟨?_, fun _ => ?_⟩
      · intro r u hm
        rw [hev] at hm
        have := (login_mem_events_iff c _ (by intro r u; simp)).mp ⟨r, u, hm⟩
        rw [hcf] at this; cases this
      · rw [hev]; simp
  · have hev : (pushImage c).events = pushPrefixEv c ++
        [Step.checkResult, Step.copy (imageOf c APP2),
         Step.inspect (imageOf c APP2), Step.extract] := by rw [he]
    constructor
    · rw [hev]
      exact (login_mem_events_iff c _ (by intro r u; simp)).trans
        (by simp [credsGiven, Bool.and_eq_true])
    · intro hcf
      refine ⟨?_, fun _ => ?_⟩
      · intro r u hm
        rw [hev] at hm
        have := (login_mem_events_iff c _ (by intro r u; simp)).mp ⟨r, u, hm⟩
        rw [hcf] at this; cases this
      · rw [hev]; simp

/-- The push invocation with only a password and no user set. -/
def noCredsPush : PushConfig :=
  { okPush with REGISTRY_USER := none, REGISTRY_PASSWORD := some "hunter2" }

/-- C9 witness: with only one credential set no login happens and the copy
step still runs; with both set a login step occurs. -/
theorem push_login_iff_creds_witness :
    (∀ r u, Step.login r u ∉ (pushImage noCredsPush).events) ∧
    Step.copy (imageOf noCredsPush "web") ∈ (pushImage noCredsPush).events ∧
    (∃ r u, Step.login r u ∈ (pushImage okPush).events) := by
  have h := (push_login_iff_creds noCredsPush "web" rfl).2 rfl
  exact ⟨h.1, h.2 rfl, (push_login_iff_creds okPush "web" rfl).1.mpr ⟨rfl, rfl⟩⟩

/-- C4: every GET request on any of the three routes receives a JSON object
carrying exactly the documented keys: `/` has name, version, description,
endpoints; `/health` has status, timestamp, environment; `/api/info` has
node_version, platform, arch, uptime, memory, environment. -/
theorem api_routes_documented_keys (st : ProcState) (hs : List (String × String)) :
    (∃ j, handleGet st { path := "/", headers := hs } = some j ∧
      j.topKeys = some ["name", "version", "description", "endpoints"]) ∧
    (∃ j, handleGet st { path := "/health", headers := hs } = some j ∧
      j.topKeys = some ["status", "timestamp", "environment"]) ∧
    (∃ j, handleGet st { path := "/api/info", headers := hs } = some j ∧
      j.topKeys = some ["node_version", "platform", "arch", "uptime",
                        "memory", "environment"]) := by
  refine ⟨⟨rootHandler st { path := "/", headers := hs }, ?_, ?_⟩,
          ⟨healthHandler st { path := "/health", headers := hs }, ?_, ?_⟩,
          ⟨infoHandler st { path := "/api/info", headers := hs }, ?_, ?_⟩⟩ <;>
    simp [handleGet, rootHandler, healthHandler, infoHandler, Json.topKeys]

/-- C7 counterexample: the claim that the health record's environment field
is the value of NODE_ENV at the moment of the request is false: when
NODE_ENV is set to the empty string the response says "development", not
the empty string. -/
theorem health_env_claim_refuted :
    ¬ (∀ (st : ProcState) (req : Request) (e : String),
        st.nodeEnv = some e →
        (healthHandler st req).lookup "environment" = some (Json.str e)) := by
  intro hclaim
  have h := hclaim
    { nowIso := "2026-10-12T00:00:00.000Z", nodeEnv := some "",
      nodeVersion := "v20.11.1", platform := "linux", arch := "x64",
      uptimeSec := 42, rssBytes := 52428800, heapTotalBytes := 20971520,
      heapUsedBytes := 10485760 }
    { path := "/health", headers := [] } "" rfl
  simp [healthHandler, Json.lookup, List.lookup, jsOrDefault] at h

/-- C7 (amended): every GET /health response is computed at request time
from the process state alone — status is "ok", timestamp is the request
moment's ISO clock reading, and environment is NODE_ENV when that variable
is set and non-empty and the string "development" otherwise; the response
depends on nothing but those two state components, so no state is carried
between requests. -/
theorem health_request_time_fields (st st₂ : ProcState) (req req₂ : Request)
    (h1 : st.nowIso = st₂.nowIso) (h2 : st.nodeEnv = st₂.nodeEnv) :
    healthHandler st req =
      Json.obj [("status", Json.str "ok"),
                ("timestamp", Json.str st.nowIso),
                ("environment", Json.str (jsOrDefault st.nodeEnv "development"))] ∧
    healthHandler st req = healthHandler st₂ req₂ := by
  constructor
  · rfl
  · simp [healthHandler, h1, h2]

/-- C7 witness: two requests at the same clock reading and NODE_ENV value
get the same response, with the documented fields. -/
theorem health_request_time_fields_witness :
    healthHandler
      { nowIso := "2026-10-12T00:00:00.000Z", nodeEnv := some "production",
        nodeVersion := "v20.11.1", platform := "linux", arch := "x64",
        uptimeSec := 42, rssBytes := 52428800, heapTotalBytes := 20971520,
        heapUsedBytes := 10485760 }
      { path := "/health", headers := [] } =
      Json.obj [("status", Json.str "ok"),
                ("timestamp", Json.str "2026-10-12T00:00:00.000Z"),
                ("environment", Json.str "production")] ∧
    healthHandler
      { nowIso := "2026-10-12T00:00:00.000Z", nodeEnv := some "production",
        nodeVersion := "v20.11.1", platform := "linux", arch := "x64",
        uptimeSec := 42, rssBytes := 52428800, heapTotalBytes := 20971520,
        heapUsedBytes := 10485760 }
      { path := "/health", headers := [] } =
      healthHandler
        { nowIso := "2026-10-12T00:00:00.000Z", nodeEnv := some "production",
          nodeVersion := "v21.0.0", platform := "darwin", arch := "arm64",
          uptimeSec := 7, rssBytes := 1048576, heapTotalBytes := 1048576,
          heapUsedBytes := 524288 }
        { path := "/health", headers := [("accept", "application/json")] } :=
  health_request_time_fields _ _ _ _ rfl rfl

/-- C10: the root endpoint's response is one fixed constant JSON object:
any two GET requests to `/`, at any process states, any clock readings,
any environments, receive identical responses. -/
theorem root_response_constant (st₁ st₂ : ProcState) (req₁ req₂ : Request) :
    rootHandler st₁ req₁ = rootHandler st₂ req₂ ∧
    handleGet st₁ { path := "/", headers := req₁.headers } =
      handleGet st₂ { path := "/", headers := req₂.headers } := by
  exact ⟨rfl, rfl⟩
